import Mathlib

set_option autoImplicit false

/-!
Shallow embedding of the lhf repository: the Linux filesystem, process
executor and network capability surfaces, together with a model of their
SSH (russh) backend.  Pure builder code is embedded as Lean functions on
structures; stateful and asynchronous code is embedded as explicit state
passing, with fallible operations returning Except.
-/

/-- A byte of file or stream content, as carried by Vec u8 in the source. -/
abbrev Byte := Fin 256

/-- Error kind tag of a std io Error value.  The SSH backend itself only
ever constructs the other kind; the remaining tags model kinds the
operating system or the SFTP peer may report. -/
inductive IoErrorKind where
  | notFound
  | permissionDenied
  | alreadyExists
  | other
  deriving DecidableEq

/-- Embeds std io Error: an error kind together with its rendered
diagnostic message. -/
structure IoError where
  kind : IoErrorKind
  message : String
  deriving DecidableEq

/-- Embeds a russh Error as carried by the session primitives: only its
rendered diagnostic matters at the abstraction boundary. -/
structure RusshError where
  message : String
  deriving DecidableEq

/-- Embeds a boxed foreign dependency error (Box dyn Error). -/
structure ForeignError where
  message : String
  deriving DecidableEq

/-- Embeds std io Error other: wraps a peer-reported error as an I/O error
whose kind is the other kind, keeping the diagnostic verbatim. -/
def ioErrorOther (e : RusshError) : IoError :=
  ⟨IoErrorKind.other, e.message⟩

/-- Embeds LinuxOpenOptions from src filesystem.rs: five boolean open-mode
flags. -/
structure LinuxOpenOptions where
  read : Bool
  write : Bool
  append : Bool
  truncate : Bool
  create : Bool
  deriving DecidableEq

/-- Embeds LinuxOpenOptions new: every flag starts out false. -/
def LinuxOpenOptions.new : LinuxOpenOptions :=
  ⟨false, false, false, false, false⟩

/-- Embeds the is_read accessor. -/
def LinuxOpenOptions.is_read (o : LinuxOpenOptions) : Bool := o.read

/-- Embeds the is_write accessor. -/
def LinuxOpenOptions.is_write (o : LinuxOpenOptions) : Bool := o.write

/-- Embeds the is_append accessor. -/
def LinuxOpenOptions.is_append (o : LinuxOpenOptions) : Bool := o.append

/-- Embeds the is_truncate accessor. -/
def LinuxOpenOptions.is_truncate (o : LinuxOpenOptions) : Bool := o.truncate

/-- Embeds the read builder method: sets the read flag and nothing else. -/
def LinuxOpenOptions.setRead (o : LinuxOpenOptions) : LinuxOpenOptions :=
  { o with read := true }

/-- Embeds the write builder method: sets the write flag and nothing else. -/
def LinuxOpenOptions.setWrite (o : LinuxOpenOptions) : LinuxOpenOptions :=
  { o with write := true }

/-- Embeds the append builder method: sets the append flag and nothing else. -/
def LinuxOpenOptions.setAppend (o : LinuxOpenOptions) : LinuxOpenOptions :=
  { o with append := true }

/-- Embeds the truncate builder method: sets the truncate flag and nothing
else. -/
def LinuxOpenOptions.setTruncate (o : LinuxOpenOptions) : LinuxOpenOptions :=
  { o with truncate := true }

/-- Embeds the create builder method: sets the create flag and nothing else. -/
def LinuxOpenOptions.setCreate (o : LinuxOpenOptions) : LinuxOpenOptions :=
  { o with create := true }

/-- One builder call on a LinuxOpenOptions value, used to reason about
arbitrary sequences of builder calls. -/
inductive OpenOptionCall where
  | read
  | write
  | append
  | truncate
  | create
  deriving DecidableEq

/-- Applies one open-options builder call. -/
def applyOpenCall (o : LinuxOpenOptions) : OpenOptionCall → LinuxOpenOptions
  | .read => o.setRead
  | .write => o.setWrite
  | .append => o.setAppend
  | .truncate => o.setTruncate
  | .create => o.setCreate

/-- Applies a sequence of open-options builder calls, left to right. -/
def applyOpenCalls (o : LinuxOpenOptions) : List OpenOptionCall → LinuxOpenOptions
  | [] => o
  | c :: rest => applyOpenCalls (applyOpenCall o c) rest

/-- Embeds HashMap String String lookup: the value bound to a key, if any. -/
def lookupEnv : List (String × String) → String → Option String
  | [], _ => none
  | kv :: rest, key => if kv.1 = key then some kv.2 else lookupEnv rest key

/-- Embeds HashMap insert: replaces an existing binding of the key in
place, otherwise adds a new binding. -/
def insertEnv : List (String × String) → String → String → List (String × String)
  | [], key, value => [(key, value)]
  | kv :: rest, key, value =>
      if kv.1 = key then (key, value) :: rest else kv :: insertEnv rest key value

/-- Embeds HashMap extend: inserts every supplied entry in order, so a
later entry for the same key overwrites an earlier one. -/
def extendEnv (m : List (String × String)) : List (String × String) → List (String × String)
  | [] => m
  | kv :: rest => extendEnv (insertEnv m kv.1 kv.2) rest

/-- The HashMap representation invariant: at most one binding per key. -/
def envKeysNodup (m : List (String × String)) : Prop :=
  (m.map Prod.fst).Nodup

/-- The first of two optional values that is present, if any. -/
def firstSome (a b : Option String) : Option String :=
  match a with
  | some v => some v
  | none => b

/-- Embeds LinuxProcessConfiguration from src executor.rs.  Paths are
modelled as strings and u32 ids as naturals. -/
structure LinuxProcessConfiguration where
  program : String
  args : List String
  envs : List (String × String)
  working_dir : Option String
  redirect_stdout : Bool
  redirect_stdin : Bool
  redirect_stderr : Bool
  disable_extra_reads : Bool
  user_id : Option Nat
  group_id : Option Nat
  process_group_id : Option Nat
  deriving DecidableEq

/-- Embeds LinuxProcessConfiguration new: only the program is set; all
lists and maps are empty, all options absent, all flags false. -/
def LinuxProcessConfiguration.new (program : String) : LinuxProcessConfiguration :=
  { program := program
    args := []
    envs := []
    working_dir := none
    redirect_stdout := false
    redirect_stdin := false
    redirect_stderr := false
    disable_extra_reads := false
    user_id := none
    group_id := none
    process_group_id := none }

/-- Embeds the arg builder method: pushes one argument. -/
def LinuxProcessConfiguration.arg (cfg : LinuxProcessConfiguration) (argument : String) :
    LinuxProcessConfiguration :=
  { cfg with args := cfg.args ++ [argument] }

/-- Embeds the args builder method, whose body is Vec append on self.args:
every element of the argument vector is moved to the end of the
configuration's argument list, leaving the caller's vector empty.  The
returned pair is the final state of self and of the caller's vector. -/
def LinuxProcessConfiguration.argsAppend (cfg : LinuxProcessConfiguration)
    (arguments : List String) : LinuxProcessConfiguration × List String :=
  ({ cfg with args := cfg.args ++ arguments }, [])

/-- Embeds the env builder method: HashMap insert of one binding. -/
def LinuxProcessConfiguration.env (cfg : LinuxProcessConfiguration) (key value : String) :
    LinuxProcessConfiguration :=
  { cfg with envs := insertEnv cfg.envs key value }

/-- Embeds the envs builder method: HashMap extend with a batch of
bindings. -/
def LinuxProcessConfiguration.envsExtend (cfg : LinuxProcessConfiguration)
    (environment : List (String × String)) : LinuxProcessConfiguration :=
  { cfg with envs := extendEnv cfg.envs environment }

/-- Embeds the clear_env builder method. -/
def LinuxProcessConfiguration.clear_env (cfg : LinuxProcessConfiguration) :
    LinuxProcessConfiguration :=
  { cfg with envs := [] }

/-- Embeds the working_dir builder method. -/
def LinuxProcessConfiguration.setWorkingDir (cfg : LinuxProcessConfiguration) (wd : String) :
    LinuxProcessConfiguration :=
  { cfg with working_dir := some wd }

/-- Embeds the redirect_stdout builder method. -/
def LinuxProcessConfiguration.setRedirectStdout (cfg : LinuxProcessConfiguration) :
    LinuxProcessConfiguration :=
  { cfg with redirect_stdout := true }

/-- Embeds the redirect_stdin builder method. -/
def LinuxProcessConfiguration.setRedirectStdin (cfg : LinuxProcessConfiguration) :
    LinuxProcessConfiguration :=
  { cfg with redirect_stdin := true }

/-- Embeds the redirect_stderr builder method. -/
def LinuxProcessConfiguration.setRedirectStderr (cfg : LinuxProcessConfiguration) :
    LinuxProcessConfiguration :=
  { cfg with redirect_stderr := true }

/-- Embeds the disable_extra_reads builder method. -/
def LinuxProcessConfiguration.setDisableExtraReads (cfg : LinuxProcessConfiguration) :
    LinuxProcessConfiguration :=
  { cfg with disable_extra_reads := true }

/-- Embeds the user_id builder method. -/
def LinuxProcessConfiguration.setUserId (cfg : LinuxProcessConfiguration) (u : Nat) :
    LinuxProcessConfiguration :=
  { cfg with user_id := some u }

/-- Embeds the group_id builder method. -/
def LinuxProcessConfiguration.setGroupId (cfg : LinuxProcessConfiguration) (g : Nat) :
    LinuxProcessConfiguration :=
  { cfg with group_id := some g }

/-- Embeds the process_group_id builder method. -/
def LinuxProcessConfiguration.setProcessGroupId (cfg : LinuxProcessConfiguration) (p : Nat) :
    LinuxProcessConfiguration :=
  { cfg with process_group_id := some p }

/-- One builder call on a LinuxProcessConfiguration, used to reason about
arbitrary sequences of builder calls. -/
inductive ConfigCall where
  | arg (argument : String)
  | args (arguments : List String)
  | env (key value : String)
  | envs (environment : List (String × String))
  | clear_env
  | working_dir (wd : String)
  | redirect_stdout
  | redirect_stdin
  | redirect_stderr
  | disable_extra_reads
  | user_id (u : Nat)
  | group_id (g : Nat)
  | process_group_id (p : Nat)

/-- Applies one configuration builder call. -/
def applyConfigCall (cfg : LinuxProcessConfiguration) : ConfigCall → LinuxProcessConfiguration
  | .arg a => cfg.arg a
  | .args v => (cfg.argsAppend v).1
  | .env k v => cfg.env k v
  | .envs m => cfg.envsExtend m
  | .clear_env => cfg.clear_env
  | .working_dir d => cfg.setWorkingDir d
  | .redirect_stdout => cfg.setRedirectStdout
  | .redirect_stdin => cfg.setRedirectStdin
  | .redirect_stderr => cfg.setRedirectStderr
  | .disable_extra_reads => cfg.setDisableExtraReads
  | .user_id u => cfg.setUserId u
  | .group_id g => cfg.setGroupId g
  | .process_group_id p => cfg.setProcessGroupId p

/-- Applies a sequence of configuration builder calls, left to right. -/
def applyConfigCalls (cfg : LinuxProcessConfiguration) :
    List ConfigCall → LinuxProcessConfiguration
  | [] => cfg
  | c :: rest => applyConfigCalls (applyConfigCall cfg c) rest

/-- Embeds LinuxProcessError from src executor.rs: the closed set of error
kinds every Process and Executor operation returns.  The IO_ constructor
embeds the IO variant wrapping a std io Error; Other wraps a boxed foreign
error. -/
inductive LinuxProcessError where
  | UnsupportedOperation
  | ProcessIdNotFound
  | StdinNotPiped
  | StdoutNotPiped
  | StderrNotPiped
  | StreamPipedButNotFound
  | IO_ (inner : IoError)
  | Other (inner : ForeignError)
  deriving DecidableEq

/-- Embeds LinuxProcessOutput from src executor.rs: optional captured
stdout and stderr bytes, the extended-stream map from channel id to bytes,
and the optional signed 64-bit exit status. -/
structure LinuxProcessOutput where
  stdout : Option (List Byte)
  stderr : Option (List Byte)
  stdout_extended : List (Nat × List Byte)
  status_code : Option Int
  deriving DecidableEq

/-- Embeds LinuxProcessPartialOutput from src executor.rs: the same fields
as LinuxProcessOutput minus the exit status. -/
structure LinuxProcessPartialOutput where
  stdout : Option (List Byte)
  stderr : Option (List Byte)
  stdout_extended : List (Nat × List Byte)
  deriving DecidableEq

/-- Forgets the exit status of a full process output, keeping every other
field. -/
def LinuxProcessOutput.truncateStatus (o : LinuxProcessOutput) : LinuxProcessPartialOutput :=
  ⟨o.stdout, o.stderr, o.stdout_extended⟩

/-- Extends a partial process output with an exit status, keeping every
field of the partial output. -/
def LinuxProcessPartialOutput.withStatus (p : LinuxProcessPartialOutput) (c : Option Int) :
    LinuxProcessOutput :=
  ⟨p.stdout, p.stderr, p.stdout_extended, c⟩

/-- Embeds the LinuxProcess trait from src executor.rs over an abstract
handle state sigma: each required asynchronous operation is a state
transformer returning Except.  Operations that consume the handle return
no successor state. -/
structure LinuxProcess (σ : Type) where
  id : σ → Option Nat
  write_to_stdin : σ → List Byte → Except LinuxProcessError (Nat × σ)
  close_stdin : σ → Except LinuxProcessError (Unit × σ)
  get_partial_output : σ → Except LinuxProcessError LinuxProcessPartialOutput
  await_exit : σ → Except LinuxProcessError (Option Int × σ)
  await_exit_with_output : σ → Except LinuxProcessError LinuxProcessOutput
  begin_kill : σ → Except LinuxProcessError (Unit × σ)

/-- Embeds the provided default body of kill: begin_kill, early-returning
its error if it fails, then await_exit. -/
def LinuxProcess.kill {σ : Type} (P : LinuxProcess σ) (s : σ) :
    Except LinuxProcessError (Option Int × σ) :=
  match P.begin_kill s with
  | .error e => .error e
  | .ok us => P.await_exit us.2

/-- Embeds the provided default body of kill_with_output: begin_kill,
early-returning its error if it fails, then await_exit_with_output. -/
def LinuxProcess.kill_with_output {σ : Type} (P : LinuxProcess σ) (s : σ) :
    Except LinuxProcessError LinuxProcessOutput :=
  match P.begin_kill s with
  | .error e => .error e
  | .ok us => P.await_exit_with_output us.2

/-- A concrete one-state process handle whose begin_kill fails, exercising
the early-return path of the kill composites. -/
def stubProcess : LinuxProcess Unit :=
  { id := fun _ => none
    write_to_stdin := fun _ _ => .error .StdinNotPiped
    close_stdin := fun s => .ok ((), s)
    get_partial_output := fun _ => .ok ⟨none, none, []⟩
    await_exit := fun s => .ok (some 0, s)
    await_exit_with_output := fun _ => .ok ⟨none, none, [], some 0⟩
    begin_kill := fun _ => .error .UnsupportedOperation }

/-- One event observed on an SSH exec channel by the process reader task:
ordinary channel data (stdout), extended data on a nonzero channel id
(id 1 is stderr), an exit-status or exit-signal report, or end of file. -/
inductive ChannelEvent where
  | data (bytes : List Byte)
  | extendedData (id : Nat) (bytes : List Byte)
  | exitStatus (code : Nat)
  | exitSignal (signal : Nat)
  | eof
  deriving DecidableEq

/-- The in-memory capture buffers a running SSH-backed process accumulates:
stdout bytes, stderr bytes, the extended-stream map, and the last reported
exit status. -/
structure ProcessBuffers where
  stdoutBuf : List Byte
  stderrBuf : List Byte
  extendedBuf : List (Nat × List Byte)
  status : Option Int
  deriving DecidableEq

/-- Fresh capture buffers at spawn time. -/
def emptyBuffers : ProcessBuffers :=
  ⟨[], [], [], none⟩

/-- Appends newly arrived bytes for an extended-stream channel id to the
stream map, adding the id if it is new. -/
def addToStreamMap : List (Nat × List Byte) → Nat → List Byte → List (Nat × List Byte)
  | [], i, bs => [(i, bs)]
  | kv :: rest, i, bs =>
      if kv.1 = i then (kv.1, kv.2 ++ bs) :: rest else kv :: addToStreamMap rest i bs

/-- Modelled from the spec: one step of the reader task of the russh
executor backend, whose implementation is not under src (src only declares
the LinuxExecutor trait).  Channel data goes to the stdout buffer,
extended data with id 1 to the stderr buffer, extended data with any other
id to the stream map unless disable_extra_reads is set (then it is
drained and dropped), an exit-status report stores the non-negative code
and an exit-signal report stores the negated signal number. -/
def drainStep (cfg : LinuxProcessConfiguration) (b : ProcessBuffers) :
    ChannelEvent → ProcessBuffers
  | .data bs => { b with stdoutBuf := b.stdoutBuf ++ bs }
  | .extendedData i bs =>
      if i = 1 then { b with stderrBuf := b.stderrBuf ++ bs }
      else if cfg.disable_extra_reads then b
      else { b with extendedBuf := addToStreamMap b.extendedBuf i bs }
  | .exitStatus code => { b with status := some (Int.ofNat code) }
  | .exitSignal signal => { b with status := some (-(Int.ofNat signal)) }
  | .eof => b

/-- Modelled from the spec: the reader task drains every channel event into
the capture buffers until the channel is exhausted. -/
def drainAll (cfg : LinuxProcessConfiguration) (b : ProcessBuffers) :
    List ChannelEvent → ProcessBuffers
  | [] => b
  | e :: rest => drainAll cfg (drainStep cfg b e) rest

/-- Modelled from the spec: assembling a consolidated LinuxProcessOutput
from the capture buffers; a captured stream is present iff the
corresponding redirect flag was set. -/
def assembleOutput (cfg : LinuxProcessConfiguration) (b : ProcessBuffers) :
    LinuxProcessOutput :=
  { stdout := if cfg.redirect_stdout then some b.stdoutBuf else none
    stderr := if cfg.redirect_stderr then some b.stderrBuf else none
    stdout_extended := b.extendedBuf
    status_code := b.status }

/-- Modelled from the spec: a live SSH-backed process handle as returned by
begin_execute of the russh executor backend (not under src): the
configuration it was spawned from together with the channel events the
peer will deliver. -/
structure RusshProcess where
  config : LinuxProcessConfiguration
  pending : List ChannelEvent

/-- Modelled from the spec: begin_execute of the russh executor backend
(not under src) spawns the process and returns a live handle with empty
buffers; the peer behaviour is the given event script. -/
def russhBeginExecute (cfg : LinuxProcessConfiguration) (events : List ChannelEvent) :
    RusshProcess :=
  ⟨cfg, events⟩

/-- Modelled from the spec: await_exit_with_output of the russh process
backend (not under src) drains every remaining channel event into the
buffers and returns the consolidated output. -/
def russhAwaitExitWithOutput (p : RusshProcess) : LinuxProcessOutput :=
  assembleOutput p.config (drainAll p.config emptyBuffers p.pending)

/-- The consolidated stdout bytes of an event script: the concatenation of
all ordinary channel data. -/
def consolidatedStdout : List ChannelEvent → List Byte
  | [] => []
  | .data bs :: rest => bs ++ consolidatedStdout rest
  | _ :: rest => consolidatedStdout rest

/-- The consolidated stderr bytes of an event script: the concatenation of
all extended data on channel id 1. -/
def consolidatedStderr : List ChannelEvent → List Byte
  | [] => []
  | .extendedData i bs :: rest =>
      if i = 1 then bs ++ consolidatedStderr rest else consolidatedStderr rest
  | _ :: rest => consolidatedStderr rest

/-- The consolidated extended-stream map of an event script: every
extended-data event with id other than 1 accumulated in arrival order,
unless disable_extra_reads is set, in which case nothing is accumulated. -/
def consolidatedExtended (cfg : LinuxProcessConfiguration) (acc : List (Nat × List Byte)) :
    List ChannelEvent → List (Nat × List Byte)
  | [] => acc
  | .extendedData i bs :: rest =>
      if i = 1 then consolidatedExtended cfg acc rest
      else if cfg.disable_extra_reads then consolidatedExtended cfg acc rest
      else consolidatedExtended cfg (addToStreamMap acc i bs) rest
  | _ :: rest => consolidatedExtended cfg acc rest

/-- The exit status an event script reports: the last exit-status code as
a non-negative integer, or the last signal negated; absent when the
channel closes without a report. -/
def finalStatus (acc : Option Int) : List ChannelEvent → Option Int
  | [] => acc
  | .exitStatus code :: rest => finalStatus (some (Int.ofNat code)) rest
  | .exitSignal signal :: rest => finalStatus (some (-(Int.ofNat signal))) rest
  | _ :: rest => finalStatus acc rest

/-- Modelled from the spec: execute of the russh executor backend (not
under src) spawns the process, waits for it, and returns the consolidated
output directly, computed here in one pass over the event script. -/
def russhExecute (cfg : LinuxProcessConfiguration) (events : List ChannelEvent) :
    LinuxProcessOutput :=
  { stdout := if cfg.redirect_stdout then some (consolidatedStdout events) else none
    stderr := if cfg.redirect_stderr then some (consolidatedStderr events) else none
    stdout_extended := consolidatedExtended cfg [] events
    status_code := finalStatus none events }

/-- Embeds the session handle held behind the handle_mutex of RusshLinux:
the peer behaviour of its tcpip_forward primitive, which answers a
tcpip-forward global request with the bound port or a russh error. -/
structure SshSessionHandle where
  tcpip_forward : String → Nat → Except RusshError Nat

/-- One observable action reverse_forward_tcp performs on the session. -/
inductive NetworkAction where
  | lockAcquire
  | tcpipForward (host : String) (port : Nat)
  deriving DecidableEq

/-- Embeds reverse_forward_tcp from src ssh_russh network.rs: locks the
session handle, issues one tcpip-forward request for the host and port,
and maps a peer error to a wrapped I/O error.  The first component is the
trace of actions performed on the session, in order. -/
def reverse_forward_tcp (session : SshSessionHandle) (host : String) (port : Nat) :
    List NetworkAction × Except IoError Nat :=
  ([NetworkAction.lockAcquire, NetworkAction.tcpipForward host port],
    match session.tcpip_forward host port with
    | .ok boundPort => .ok boundPort
    | .error e => .error (ioErrorOther e))

/-- Embeds is_remote_network of the russh backend: constantly true. -/
def russhIsRemoteNetwork : Bool := true

/-- A concrete session handle whose forward request always fails,
exercising the error path of reverse_forward_tcp. -/
def stubSession : SshSessionHandle :=
  ⟨fun _ _ => .error ⟨"forward refused"⟩⟩

/-- An absolute POSIX path, as its list of components. -/
abbrev FsPath := List String

/-- A node of the modelled remote filesystem: a regular file with its
content bytes, a directory, or a symbolic link with its target path. -/
inductive FsNode where
  | file (content : List Byte)
  | dir
  | symlink (target : FsPath)
  deriving DecidableEq

/-- The modelled remote filesystem: entries from path to node. -/
abbrev FsState := List (FsPath × FsNode)

/-- The node stored at a path, if any (first matching entry). -/
def lookupNode : FsState → FsPath → Option FsNode
  | [], _ => none
  | e :: rest, p => if e.1 = p then some e.2 else lookupNode rest p

/-- Removes every entry stored at exactly the given path. -/
def eraseEntry (fs : FsState) (p : FsPath) : FsState :=
  fs.filter (fun e => decide (e.1 ≠ p))

/-- The name under which q is a direct child of p, if it is one. -/
def childNameOf (p q : FsPath) : Option String :=
  if q.take p.length = p then
    match q.drop p.length with
    | [n] => some n
    | _ => none
  else none

/-- The names of the direct children of p present in the filesystem. -/
def childNames (fs : FsState) (p : FsPath) : List String :=
  fs.filterMap (fun e => childNameOf p e.1)

/-- Whether q is p itself or lies strictly below p. -/
def atOrUnder (p q : FsPath) : Bool :=
  q.take p.length = p

/-- Modelled from the spec: remove_file of the russh filesystem backend
(absent from the src snapshot of filesystem.rs, but exercised by the
repository tests): SFTP remove deletes a non-directory entry. -/
def remove_file (fs : FsState) (p : FsPath) : Except IoError FsState :=
  match lookupNode fs p with
  | some (.file _) => .ok (eraseEntry fs p)
  | some (.symlink _) => .ok (eraseEntry fs p)
  | some .dir => .error ⟨IoErrorKind.other, "is a directory"⟩
  | none => .error ⟨IoErrorKind.notFound, "no such file"⟩

/-- Modelled from the spec: remove_dir of the russh filesystem backend
(absent from the src snapshot of filesystem.rs, but exercised by the
repository tests): SFTP rmdir deletes a directory and rejects a non-empty
one. -/
def remove_dir (fs : FsState) (p : FsPath) : Except IoError FsState :=
  match lookupNode fs p with
  | some .dir =>
      if childNames fs p = [] then .ok (eraseEntry fs p)
      else .error ⟨IoErrorKind.other, "directory not empty"⟩
  | some _ => .error ⟨IoErrorKind.other, "not a directory"⟩
  | none => .error ⟨IoErrorKind.notFound, "no such file"⟩

/-- Modelled from the spec: remove_dir_recursively of the russh filesystem
backend (absent from the src snapshot of filesystem.rs, but exercised by
the repository tests): a helper exec of rm -rf removes the path and
everything below it. -/
def remove_dir_recursively (fs : FsState) (p : FsPath) : Except IoError FsState :=
  .ok (fs.filter (fun e => !atOrUnder p e.1))

/-- Modelled from the spec: create_dir of the russh filesystem backend
(absent from the src snapshot of filesystem.rs, but exercised by the
repository tests): SFTP mkdir creates a directory at a path where nothing
exists yet. -/
def create_dir (fs : FsState) (p : FsPath) : Except IoError FsState :=
  match lookupNode fs p with
  | some _ => .error ⟨IoErrorKind.alreadyExists, "file exists"⟩
  | none => .ok ((p, FsNode.dir) :: fs)

/-- Creates each missing component directory along a path, left to right;
done is the already-processed leading part of the path. -/
def mkdirAll (fs : FsState) (done : FsPath) : List String → FsState
  | [] => fs
  | c :: rest =>
      if (lookupNode fs (done ++ [c])).isSome then mkdirAll fs (done ++ [c]) rest
      else mkdirAll ((done ++ [c], FsNode.dir) :: fs) (done ++ [c]) rest

/-- Modelled from the spec: create_dir_recursively of the russh filesystem
backend (absent from the src snapshot of filesystem.rs, but exercised by
the repository tests): a helper exec of mkdir -p creates every missing
component of the path. -/
def create_dir_recursively (fs : FsState) (p : FsPath) : Except IoError FsState :=
  .ok (mkdirAll fs [] p)

/-- The file-type tag of a directory entry or of metadata. -/
inductive LinuxFileType where
  | file
  | dir
  | symlink
  | other
  deriving DecidableEq

/-- A directory-listing entry: full path, file-type tag and display name. -/
structure LinuxDirEntry where
  path : FsPath
  file_type : LinuxFileType
  name : String
  deriving DecidableEq

/-- The file-type tag of a filesystem node. -/
def typeTag : FsNode → LinuxFileType
  | .file _ => .file
  | .dir => .dir
  | .symlink _ => .symlink

/-- The raw SFTP readdir listing of a directory: the dot and dotdot
entries the server always reports, followed by the direct children. -/
def rawReaddir (fs : FsState) (p : FsPath) : List (String × FsNode) :=
  (".", FsNode.dir) :: ("..", FsNode.dir) ::
    fs.filterMap (fun e =>
      match childNameOf p e.1 with
      | some n => some (n, e.2)
      | none => none)

/-- Modelled from the spec: list_dir of the russh filesystem backend
(absent from the src snapshot of filesystem.rs, but exercised by the
repository tests): SFTP readdir on the single level below the path, with
the dot and dotdot entries filtered out and each remaining raw entry
translated to a LinuxDirEntry. -/
def list_dir (fs : FsState) (p : FsPath) : Except IoError (List LinuxDirEntry) :=
  match lookupNode fs p with
  | some .dir =>
      .ok ((rawReaddir fs p).filterMap (fun en =>
        if en.1 = "." ∨ en.1 = ".." then none
        else some ⟨p ++ [en.1], typeTag en.2, en.1⟩))
  | some _ => .error ⟨IoErrorKind.other, "not a directory"⟩
  | none => .error ⟨IoErrorKind.notFound, "no such directory"⟩

/-- File metadata as produced by metadata queries: file-type tag, size,
permission bits, timestamps, owning ids and names, each optional. -/
structure LinuxFileMetadata where
  file_type : Option LinuxFileType
  size : Option Nat
  permissions : Option Nat
  modified_time : Option Nat
  accessed_time : Option Nat
  created_time : Option Nat
  user_id : Option Nat
  user_name : Option String
  group_id : Option Nat
  group_name : Option String
  deriving DecidableEq

/-- The metadata the model derives from a node: its type tag and size. -/
def metadataOf (node : FsNode) : LinuxFileMetadata :=
  { file_type := some (typeTag node)
    size := some (match node with | .file content => content.length | _ => 0)
    permissions := none
    modified_time := none
    accessed_time := none
    created_time := none
    user_id := none
    user_name := none
    group_id := none
    group_name := none }

/-- Resolves a path through symbolic links, with bounded link depth as the
kernel and SFTP servers impose. -/
def resolvePath (fs : FsState) : Nat → FsPath → Option (FsPath × FsNode)
  | 0, _ => none
  | fuel + 1, p =>
      match lookupNode fs p with
      | some (.symlink t) => resolvePath fs fuel t
      | some n => some (p, n)
      | none => none

/-- Modelled from the spec: get_metadata of the russh filesystem backend
(absent from the src snapshot of filesystem.rs, but exercised by the
repository tests): SFTP stat, which follows symbolic links before
reporting metadata. -/
def get_metadata (fs : FsState) (p : FsPath) : Except IoError LinuxFileMetadata :=
  match resolvePath fs 40 p with
  | some pn => .ok (metadataOf pn.2)
  | none => .error ⟨IoErrorKind.notFound, "stat failed"⟩

/-- Modelled from the spec: get_symlink_metadata of the russh filesystem
backend (absent from the src snapshot of filesystem.rs, but exercised by
the repository tests): SFTP lstat, which reports the metadata of the node
at the path itself without following a symbolic link. -/
def get_symlink_metadata (fs : FsState) (p : FsPath) : Except IoError LinuxFileMetadata :=
  match lookupNode fs p with
  | some n => .ok (metadataOf n)
  | none => .error ⟨IoErrorKind.notFound, "lstat failed"⟩

lemma lookupEnv_insertEnv_self (m : List (String × String)) (k v : String) :
    lookupEnv (insertEnv m k v) k = some v := by
  induction m with
  | nil => simp [insertEnv, lookupEnv]
  | cons kv rest ih =>
      by_cases h : kv.1 = k
      · simp [insertEnv, h, lookupEnv]
      · simp [insertEnv, h, lookupEnv, ih]

lemma lookupEnv_insertEnv_ne (m : List (String × String)) (k v k2 : String) (h : k2 ≠ k) :
    lookupEnv (insertEnv m k v) k2 = lookupEnv m k2 := by
  induction m with
  | nil => simp [insertEnv, lookupEnv, Ne.symm h]
  | cons kv rest ih =>
      by_cases hk : kv.1 = k
      · simp [insertEnv, hk, lookupEnv, Ne.symm h]
      · simp [insertEnv, hk, lookupEnv, ih]

lemma mem_keys_insertEnv (m : List (String × String)) (k v x : String) :
    x ∈ (insertEnv m k v).map Prod.fst ↔ x = k ∨ x ∈ m.map Prod.fst := by
  induction m with
  | nil => simp [insertEnv]
  | cons kv rest ih =>
      rw [insertEnv]
      by_cases hk : kv.1 = k
      · rw [if_pos hk, List.map_cons, List.map_cons]
        constructor
        · intro hx
          rcases List.mem_cons.mp hx with h1 | h2
          · exact Or.inl h1
          · exact Or.inr (List.mem_cons.mpr (Or.inr h2))
        · intro hx
          rcases hx with h1 | h2
          · exact List.mem_cons.mpr (Or.inl h1)
          · rcases List.mem_cons.mp h2 with h3 | h4
            · exact List.mem_cons.mpr (Or.inl (h3.trans hk))
            · exact List.mem_cons.mpr (Or.inr h4)
      · rw [if_neg hk, List.map_cons, List.map_cons]
        constructor
        · intro hx
          rcases List.mem_cons.mp hx with h1 | h2
          · exact Or.inr (List.mem_cons.mpr (Or.inl h1))
          · rcases ih.mp h2 with h3 | h4
            · exact Or.inl h3
            · exact Or.inr (List.mem_cons.mpr (Or.inr h4))
        · intro hx
          rcases hx with h1 | h2
          · exact List.mem_cons.mpr (Or.inr (ih.mpr (Or.inl h1)))
          · rcases List.mem_cons.mp h2 with h3 | h4
            · exact List.mem_cons.mpr (Or.inl h3)
            · exact List.mem_cons.mpr (Or.inr (ih.mpr (Or.inr h4)))

lemma envKeysNodup_insertEnv (m : List (String × String)) (k v : String)
    (h : envKeysNodup m) : envKeysNodup (insertEnv m k v) := by
  induction m with
  | nil => simp [insertEnv, envKeysNodup]
  | cons kv rest ih =>
      rw [envKeysNodup, List.map_cons, List.nodup_cons] at h
      by_cases hk : kv.1 = k
      · rw [envKeysNodup, insertEnv, if_pos hk, List.map_cons, List.nodup_cons]
        exact ⟨hk ▸ h.1, h.2⟩
      · rw [envKeysNodup, insertEnv, if_neg hk, List.map_cons, List.nodup_cons]
        refine ⟨fun hmem => ?_, ih h.2⟩
        rcases (mem_keys_insertEnv rest k v kv.1).mp hmem with heq | hmem2
        · exact hk heq
        · exact h.1 hmem2

lemma envKeysNodup_extendEnv (m es : List (String × String))
    (h : envKeysNodup m) : envKeysNodup (extendEnv m es) := by
  induction es generalizing m with
  | nil => exact h
  | cons kv rest ih =>
      rw [extendEnv]
      exact ih _ (envKeysNodup_insertEnv m kv.1 kv.2 h)

lemma lookupEnv_append (xs ys : List (String × String)) (k : String) :
    lookupEnv (xs ++ ys) k = firstSome (lookupEnv xs k) (lookupEnv ys k) := by
  induction xs with
  | nil => simp [lookupEnv, firstSome]
  | cons kv rest ih =>
      by_cases h : kv.1 = k <;> simp [lookupEnv, h, firstSome, ih]

lemma firstSome_assoc (a b c : Option String) :
    firstSome (firstSome a b) c = firstSome a (firstSome b c) := by
  cases a <;> simp [firstSome]

lemma lookupEnv_extendEnv (m es : List (String × String)) (k : String) :
    lookupEnv (extendEnv m es) k = firstSome (lookupEnv es.reverse k) (lookupEnv m k) := by
  induction es generalizing m with
  | nil => simp [extendEnv, lookupEnv, firstSome]
  | cons kv rest ih =>
      rw [extendEnv, ih, List.reverse_cons, lookupEnv_append, firstSome_assoc]
      congr 1
      by_cases h : kv.1 = k
      · subst h
        simp [lookupEnv, firstSome, lookupEnv_insertEnv_self]
      · rw [lookupEnv_insertEnv_ne m kv.1 kv.2 k (Ne.symm h)]
        simp [lookupEnv, h, firstSome]

lemma envKeysNodup_applyConfigCall (cfg : LinuxProcessConfiguration) (c : ConfigCall)
    (h : envKeysNodup cfg.envs) : envKeysNodup (applyConfigCall cfg c).envs := by
  cases c with
  | arg a => exact h
  | args v => exact h
  | env k v => exact envKeysNodup_insertEnv cfg.envs k v h
  | envs m => exact envKeysNodup_extendEnv cfg.envs m h
  | clear_env => exact List.nodup_nil
  | working_dir d => exact h
  | redirect_stdout => exact h
  | redirect_stdin => exact h
  | redirect_stderr => exact h
  | disable_extra_reads => exact h
  | user_id u => exact h
  | group_id g => exact h
  | process_group_id p => exact h

lemma envKeysNodup_applyConfigCalls (cfg : LinuxProcessConfiguration)
    (calls : List ConfigCall) (h : envKeysNodup cfg.envs) :
    envKeysNodup (applyConfigCalls cfg calls).envs := by
  induction calls generalizing cfg with
  | nil => exact h
  | cons c rest ih =>
      rw [applyConfigCalls]
      exact ih _ (envKeysNodup_applyConfigCall cfg c h)

lemma drainAll_stdoutBuf (evs : List ChannelEvent) (cfg : LinuxProcessConfiguration)
    (b : ProcessBuffers) :
    (drainAll cfg b evs).stdoutBuf = b.stdoutBuf ++ consolidatedStdout evs := by
  induction evs generalizing b with
  | nil => simp [drainAll, consolidatedStdout]
  | cons e rest ih =>
      rw [drainAll, ih]
      cases e with
      | data bs => simp [drainStep, consolidatedStdout, List.append_assoc]
      | extendedData i bs =>
          by_cases h1 : i = 1
          · simp [drainStep, h1, consolidatedStdout]
          · by_cases h2 : cfg.disable_extra_reads <;>
              simp [drainStep, h1, h2, consolidatedStdout]
      | exitStatus code => simp [drainStep, consolidatedStdout]
      | exitSignal signal => simp [drainStep, consolidatedStdout]
      | eof => simp [drainStep, consolidatedStdout]

lemma drainAll_stderrBuf (evs : List ChannelEvent) (cfg : LinuxProcessConfiguration)
    (b : ProcessBuffers) :
    (drainAll cfg b evs).stderrBuf = b.stderrBuf ++ consolidatedStderr evs := by
  induction evs generalizing b with
  | nil => simp [drainAll, consolidatedStderr]
  | cons e rest ih =>
      rw [drainAll, ih]
      cases e with
      | data bs => simp [drainStep, consolidatedStderr]
      | extendedData i bs =>
          by_cases h1 : i = 1
          · simp [drainStep, h1, consolidatedStderr, List.append_assoc]
          · by_cases h2 : cfg.disable_extra_reads <;>
              simp [drainStep, h1, h2, consolidatedStderr]
      | exitStatus code => simp [drainStep, consolidatedStderr]
      | exitSignal signal => simp [drainStep, consolidatedStderr]
      | eof => simp [drainStep, consolidatedStderr]

lemma drainAll_extendedBuf (evs : List ChannelEvent) (cfg : LinuxProcessConfiguration)
    (b : ProcessBuffers) :
    (drainAll cfg b evs).extendedBuf = consolidatedExtended cfg b.extendedBuf evs := by
  induction evs generalizing b with
  | nil => simp [drainAll, consolidatedExtended]
  | cons e rest ih =>
      rw [drainAll, ih]
      cases e with
      | data bs => simp [drainStep, consolidatedExtended]
      | extendedData i bs =>
          by_cases h1 : i = 1
          · simp [drainStep, h1, consolidatedExtended]
          · by_cases h2 : cfg.disable_extra_reads <;>
              simp [drainStep, h1, h2, consolidatedExtended]
      | exitStatus code => simp [drainStep, consolidatedExtended]
      | exitSignal signal => simp [drainStep, consolidatedExtended]
      | eof => simp [drainStep, consolidatedExtended]

lemma drainAll_status (evs : List ChannelEvent) (cfg : LinuxProcessConfiguration)
    (b : ProcessBuffers) :
    (drainAll cfg b evs).status = finalStatus b.status evs := by
  induction evs generalizing b with
  | nil => simp [drainAll, finalStatus]
  | cons e rest ih =>
      rw [drainAll, ih]
      cases e with
      | data bs => simp [drainStep, finalStatus]
      | extendedData i bs =>
          by_cases h1 : i = 1
          · simp [drainStep, h1, finalStatus]
          · by_cases h2 : cfg.disable_extra_reads <;>
              simp [drainStep, h1, h2, finalStatus]
      | exitStatus code => simp [drainStep, finalStatus]
      | exitSignal signal => simp [drainStep, finalStatus]
      | eof => simp [drainStep, finalStatus]

lemma lookupNode_filter_not_under (fs : FsState) (p q : FsPath)
    (h : atOrUnder p q = true) :
    lookupNode (fs.filter (fun e => !atOrUnder p e.1)) q = none := by
  induction fs with
  | nil => rfl
  | cons e rest ih =>
      by_cases he : atOrUnder p e.1 = true
      · simp [List.filter_cons, he, ih]
      · have hne : e.1 ≠ q := fun hh => he (hh ▸ h)
        simp [List.filter_cons, he, lookupNode, hne, ih]

lemma mkdirAll_creates (cs : List String) (fs : FsState) (done : FsPath)
    (hne : cs ≠ []) (hnone : lookupNode fs (done ++ cs) = none) :
    lookupNode (mkdirAll fs done cs) (done ++ cs) = some FsNode.dir := by
  induction cs generalizing fs done with
  | nil => exact absurd rfl hne
  | cons c rest ih =>
      rw [mkdirAll]
      cases rest with
      | nil =>
          rw [hnone]
          simp only [Option.isSome_none, Bool.false_eq_true, if_false]
          rw [mkdirAll]
          simp [lookupNode]
      | cons r rs =>
          have hsplit : done ++ c :: r :: rs = (done ++ [c]) ++ r :: rs := by
            simp [List.append_assoc]
          by_cases hq : (lookupNode fs (done ++ [c])).isSome
          · rw [if_pos hq]
            rw [hsplit] at hnone ⊢
            exact ih fs (done ++ [c]) (by simp) hnone
          · rw [if_neg hq]
            rw [hsplit] at hnone ⊢
            have hlen : done ++ [c] ≠ (done ++ [c]) ++ r :: rs := by
              intro hcontra
              have := congrArg List.length hcontra
              simp [List.length_append] at this
            have hnone2 : lookupNode ((done ++ [c], FsNode.dir) :: fs) ((done ++ [c]) ++ r :: rs) = none := by
              rw [lookupNode]
              simp only [if_neg hlen]
              exact hnone
            exact ih ((done ++ [c], FsNode.dir) :: fs) (done ++ [c]) (by simp) hnone2

lemma list_dir_entries (fs : FsState) (p : FsPath) (entries : List LinuxDirEntry)
    (h : list_dir fs p = Except.ok entries) :
    ∀ ent ∈ entries, ent.name ≠ "." ∧ ent.name ≠ ".." ∧ ent.path = p ++ [ent.name] := by
  intro ent hmem
  cases hl : lookupNode fs p with
  | none => rw [list_dir, hl] at h; cases h
  | some node =>
      cases node with
      | file content => rw [list_dir, hl] at h; cases h
      | symlink t => rw [list_dir, hl] at h; cases h
      | dir =>
          rw [list_dir, hl] at h
          have hent : entries = (rawReaddir fs p).filterMap (fun en =>
              if en.1 = "." ∨ en.1 = ".." then none
              else some ⟨p ++ [en.1], typeTag en.2, en.1⟩) := by
            cases h; rfl
          rw [hent] at hmem
          obtain ⟨a, _, hfa⟩ := List.mem_filterMap.mp hmem
          by_cases hdot : a.1 = "." ∨ a.1 = ".."
          · rw [if_pos hdot] at hfa; cases hfa
          · rw [if_neg hdot] at hfa
            have hent2 : ent = ⟨p ++ [a.1], typeTag a.2, a.1⟩ := by
              cases hfa; rfl
            push_neg at hdot
            rw [hent2]
            exact ⟨hdot.1, hdot.2, rfl⟩

lemma applyOpenCall_flag_mono (o : LinuxOpenOptions) (c : OpenOptionCall) :
    (o.read = true → (applyOpenCall o c).read = true) ∧
    (o.write = true → (applyOpenCall o c).write = true) ∧
    (o.append = true → (applyOpenCall o c).append = true) ∧
    (o.truncate = true → (applyOpenCall o c).truncate = true) ∧
    (o.create = true → (applyOpenCall o c).create = true) := by
  cases c <;>
    simp [applyOpenCall, LinuxOpenOptions.setRead, LinuxOpenOptions.setWrite,
      LinuxOpenOptions.setAppend, LinuxOpenOptions.setTruncate, LinuxOpenOptions.setCreate]

lemma applyOpenCalls_mono (calls : List OpenOptionCall) (o : LinuxOpenOptions) :
    (o.read = true → (applyOpenCalls o calls).read = true) ∧
    (o.write = true → (applyOpenCalls o calls).write = true) ∧
    (o.append = true → (applyOpenCalls o calls).append = true) ∧
    (o.truncate = true → (applyOpenCalls o calls).truncate = true) ∧
    (o.create = true → (applyOpenCalls o calls).create = true) := by
  induction calls generalizing o with
  | nil => exact ⟨id, id, id, id, id⟩
  | cons c rest ih =>
      have h1 := applyOpenCall_flag_mono o c
      have h2 := ih (applyOpenCall o c)
      exact ⟨fun h => h2.1 (h1.1 h), fun h => h2.2.1 (h1.2.1 h),
        fun h => h2.2.2.1 (h1.2.2.1 h), fun h => h2.2.2.2.1 (h1.2.2.2.1 h),
        fun h => h2.2.2.2.2 (h1.2.2.2.2 h)⟩

/-- C3: for every process handle, kill is exactly begin_kill followed by
await_exit and kill_with_output is exactly begin_kill followed by
await_exit_with_output; when begin_kill fails, both composites return that
error without performing the subsequent await, and when it succeeds they
return exactly what the await on the successor state returns. -/
theorem C3_kill_composites {σ : Type} (P : LinuxProcess σ) (s : σ) :
    P.kill s = ((P.begin_kill s).bind fun us => P.await_exit us.2) ∧
    P.kill_with_output s = ((P.begin_kill s).bind fun us => P.await_exit_with_output us.2) ∧
    (∀ e, P.begin_kill s = .error e →
      P.kill s = .error e ∧ P.kill_with_output s = .error e) ∧
    (∀ u s2, P.begin_kill s = .ok (u, s2) →
      P.kill s = P.await_exit s2 ∧ P.kill_with_output s = P.await_exit_with_output s2) := by
  refine ⟨?_, ?_, ?_, ?_⟩
  · cases h : P.begin_kill s <;> simp [LinuxProcess.kill, h, Except.bind]
  · cases h : P.begin_kill s <;> simp [LinuxProcess.kill_with_output, h, Except.bind]
  · intro e h
    exact ⟨by simp [LinuxProcess.kill, h], by simp [LinuxProcess.kill_with_output, h]⟩
  · intro u s2 h
    exact ⟨by simp [LinuxProcess.kill, h], by simp [LinuxProcess.kill_with_output, h]⟩

/-- Witness for C3 at a concrete process handle whose begin_kill fails:
both composites surface the begin_kill error without awaiting. -/
theorem C3_kill_composites_witness :
    stubProcess.kill () = Except.error LinuxProcessError.UnsupportedOperation ∧
    stubProcess.kill_with_output () = Except.error LinuxProcessError.UnsupportedOperation :=
  (C3_kill_composites stubProcess ()).2.2.1 LinuxProcessError.UnsupportedOperation rfl

/-- C4: reverse_forward_tcp first takes the session lock, then issues a
single tcpip-forward request for the host and port; on success it returns
the port the peer reports, and on failure it wraps the peer error as an
I/O error of the other kind, producing no other error kind. -/
theorem C4_reverse_forward (session : SshSessionHandle) (host : String) (port : Nat) :
    (reverse_forward_tcp session host port).1 =
      [NetworkAction.lockAcquire, NetworkAction.tcpipForward host port] ∧
    (∀ boundPort, session.tcpip_forward host port = .ok boundPort →
      (reverse_forward_tcp session host port).2 = .ok boundPort) ∧
    (∀ e, session.tcpip_forward host port = .error e →
      (reverse_forward_tcp session host port).2 = .error ⟨IoErrorKind.other, e.message⟩) ∧
    (∀ err, (reverse_forward_tcp session host port).2 = .error err →
      err.kind = IoErrorKind.other) := by
  refine ⟨rfl, ?_, ?_, ?_⟩
  · intro boundPort h
    simp [reverse_forward_tcp, h]
  · intro e h
    simp [reverse_forward_tcp, h, ioErrorOther]
  · intro err h
    cases htf : session.tcpip_forward host port with
    | ok boundPort => simp [reverse_forward_tcp, htf] at h
    | error e =>
        simp [reverse_forward_tcp, htf, ioErrorOther] at h
        rw [← h]

/-- Witness for C4 at a concrete session whose forward request fails: the
result is the wrapped I/O error of the other kind. -/
theorem C4_reverse_forward_witness :
    (reverse_forward_tcp stubSession "localhost" 8080).2 =
      Except.error ⟨IoErrorKind.other, "forward refused"⟩ :=
  (C4_reverse_forward stubSession "localhost" 8080).2.2.1 ⟨"forward refused"⟩ rfl

/-- C5: the process error type is a closed set of exactly eight kinds:
six bare kinds plus the wrapped I/O and foreign kinds; every value of the
type, and hence every error any Process or Executor operation returns, is
one of these. -/
theorem C5_error_taxonomy_closed (e : LinuxProcessError) :
    e = LinuxProcessError.UnsupportedOperation ∨
    e = LinuxProcessError.ProcessIdNotFound ∨
    e = LinuxProcessError.StdinNotPiped ∨
    e = LinuxProcessError.StdoutNotPiped ∨
    e = LinuxProcessError.StderrNotPiped ∨
    e = LinuxProcessError.StreamPipedButNotFound ∨
    (∃ inner, e = LinuxProcessError.IO_ inner) ∨
    (∃ inner, e = LinuxProcessError.Other inner) := by
  cases e <;> simp

/-- C6: LinuxProcessPartialOutput has exactly the fields of
LinuxProcessOutput minus the exit status: forgetting the status and
reattaching it is the identity, and the partial output neither loses nor
gains any other field. -/
theorem C6_output_minus_status :
    (∀ o : LinuxProcessOutput, (o.truncateStatus).withStatus o.status_code = o) ∧
    (∀ (p : LinuxProcessPartialOutput) (c : Option Int),
      (p.withStatus c).truncateStatus = p ∧ (p.withStatus c).status_code = c) ∧
    (∀ o : LinuxProcessOutput,
      (o.truncateStatus).stdout = o.stdout ∧
      (o.truncateStatus).stderr = o.stderr ∧
      (o.truncateStatus).stdout_extended = o.stdout_extended) := by
  refine ⟨fun o => ?_, fun p c => ?_, fun o => ⟨rfl, rfl, rfl⟩⟩
  · cases o; rfl
  · cases p; exact ⟨rfl, rfl⟩

/-- C8: LinuxProcessConfiguration.new yields the configuration whose
program is the given one, whose argument list and environment are empty,
whose working directory and ids are all absent, and whose four flags are
all false. -/
theorem C8_new_defaults (p : String) :
    (LinuxProcessConfiguration.new p).program = p ∧
    (LinuxProcessConfiguration.new p).args = [] ∧
    (LinuxProcessConfiguration.new p).envs = [] ∧
    (LinuxProcessConfiguration.new p).working_dir = none ∧
    (LinuxProcessConfiguration.new p).redirect_stdout = false ∧
    (LinuxProcessConfiguration.new p).redirect_stdin = false ∧
    (LinuxProcessConfiguration.new p).redirect_stderr = false ∧
    (LinuxProcessConfiguration.new p).disable_extra_reads = false ∧
    (LinuxProcessConfiguration.new p).user_id = none ∧
    (LinuxProcessConfiguration.new p).group_id = none ∧
    (LinuxProcessConfiguration.new p).process_group_id = none :=
  ⟨rfl, rfl, rfl, rfl, rfl, rfl, rfl, rfl, rfl, rfl, rfl⟩

/-- C10: the args builder call appends every element of the caller's
vector to the argument list in original order, leaves the caller's vector
empty afterwards, and changes no other field of the configuration. -/
theorem C10_args_appends_and_moves (cfg : LinuxProcessConfiguration) (v : List String) :
    (cfg.argsAppend v).1.args = cfg.args ++ v ∧
    (cfg.argsAppend v).2 = [] ∧
    (cfg.argsAppend v).1.program = cfg.program ∧
    (cfg.argsAppend v).1.envs = cfg.envs ∧
    (cfg.argsAppend v).1.working_dir = cfg.working_dir ∧
    (cfg.argsAppend v).1.redirect_stdout = cfg.redirect_stdout ∧
    (cfg.argsAppend v).1.redirect_stdin = cfg.redirect_stdin ∧
    (cfg.argsAppend v).1.redirect_stderr = cfg.redirect_stderr ∧
    (cfg.argsAppend v).1.disable_extra_reads = cfg.disable_extra_reads ∧
    (cfg.argsAppend v).1.user_id = cfg.user_id ∧
    (cfg.argsAppend v).1.group_id = cfg.group_id ∧
    (cfg.argsAppend v).1.process_group_id = cfg.process_group_id :=
  ⟨rfl, rfl, rfl, rfl, rfl, rfl, rfl, rfl, rfl, rfl, rfl, rfl⟩

/-- C2: for every process configuration and every peer behaviour (event
script), execute returns exactly the consolidated output and exit status
that begin_execute followed by await_exit_with_output returns. -/
theorem C2_execute_equals_begin_then_await (cfg : LinuxProcessConfiguration)
    (events : List ChannelEvent) :
    russhExecute cfg events = russhAwaitExitWithOutput (russhBeginExecute cfg events) := by
  unfold russhExecute russhAwaitExitWithOutput russhBeginExecute assembleOutput
  simp [drainAll_stdoutBuf, drainAll_stderrBuf, drainAll_extendedBuf, drainAll_status,
    emptyBuffers]

/-- C7: over every sequence of builder calls the environment mapping keeps
at most one value per name; env of an already-bound name replaces the
binding, leaves other names untouched, and envs merges a batch with the
later insertion for a name winning over both the batch's earlier entries
and the existing binding. -/
theorem C7_env_mapping_unique_names :
    (∀ (p : String) (calls : List ConfigCall),
      envKeysNodup (applyConfigCalls (LinuxProcessConfiguration.new p) calls).envs) ∧
    (∀ (cfg : LinuxProcessConfiguration) (k v : String),
      lookupEnv (cfg.env k v).envs k = some v) ∧
    (∀ (cfg : LinuxProcessConfiguration) (k v k2 : String), k2 ≠ k →
      lookupEnv (cfg.env k v).envs k2 = lookupEnv cfg.envs k2) ∧
    (∀ (cfg : LinuxProcessConfiguration) (m : List (String × String)) (k : String),
      lookupEnv (cfg.envsExtend m).envs k =
        firstSome (lookupEnv m.reverse k) (lookupEnv cfg.envs k)) := by
  refine ⟨?_, ?_, ?_, ?_⟩
  · intro p calls
    exact envKeysNodup_applyConfigCalls (LinuxProcessConfiguration.new p) calls List.nodup_nil
  · intro cfg k v
    exact lookupEnv_insertEnv_self cfg.envs k v
  · intro cfg k v k2 h
    exact lookupEnv_insertEnv_ne cfg.envs k v k2 h
  · intro cfg m k
    exact lookupEnv_extendEnv cfg.envs m k

/-- Witness for C7 at concrete bindings: a rebinding of A replaces the old
value, a binding of B leaves A untouched. -/
theorem C7_env_mapping_unique_names_witness :
    lookupEnv (((LinuxProcessConfiguration.new "sh").env "A" "1").env "B" "2").envs "A" =
      some "1" := by
  have h := C7_env_mapping_unique_names.2.2.1
    ((LinuxProcessConfiguration.new "sh").env "A" "1") "B" "2" "A" (by decide)
  rw [h]
  exact C7_env_mapping_unique_names.2.1 (LinuxProcessConfiguration.new "sh") "A" "1"

/-- C9: new open options have all five flags false; each setter sets
exactly its own flag and leaves the other four unchanged; and over any
sequence of builder calls every flag is monotone, never reset to false. -/
theorem C9_open_options_builder (o : LinuxOpenOptions) (calls : List OpenOptionCall) :
    (LinuxOpenOptions.new.read = false ∧ LinuxOpenOptions.new.write = false ∧
     LinuxOpenOptions.new.append = false ∧ LinuxOpenOptions.new.truncate = false ∧
     LinuxOpenOptions.new.create = false) ∧
    (o.setRead.read = true ∧ o.setRead.write = o.write ∧ o.setRead.append = o.append ∧
     o.setRead.truncate = o.truncate ∧ o.setRead.create = o.create) ∧
    (o.setWrite.write = true ∧ o.setWrite.read = o.read ∧ o.setWrite.append = o.append ∧
     o.setWrite.truncate = o.truncate ∧ o.setWrite.create = o.create) ∧
    (o.setAppend.append = true ∧ o.setAppend.read = o.read ∧ o.setAppend.write = o.write ∧
     o.setAppend.truncate = o.truncate ∧ o.setAppend.create = o.create) ∧
    (o.setTruncate.truncate = true ∧ o.setTruncate.read = o.read ∧
     o.setTruncate.write = o.write ∧ o.setTruncate.append = o.append ∧
     o.setTruncate.create = o.create) ∧
    (o.setCreate.create = true ∧ o.setCreate.read = o.read ∧ o.setCreate.write = o.write ∧
     o.setCreate.append = o.append ∧ o.setCreate.truncate = o.truncate) ∧
    ((o.read = true → (applyOpenCalls o calls).read = true) ∧
     (o.write = true → (applyOpenCalls o calls).write = true) ∧
     (o.append = true → (applyOpenCalls o calls).append = true) ∧
     (o.truncate = true → (applyOpenCalls o calls).truncate = true) ∧
     (o.create = true → (applyOpenCalls o calls).create = true)) :=
  ⟨⟨rfl, rfl, rfl, rfl, rfl⟩, ⟨rfl, rfl, rfl, rfl, rfl⟩, ⟨rfl, rfl, rfl, rfl, rfl⟩,
   ⟨rfl, rfl, rfl, rfl, rfl⟩, ⟨rfl, rfl, rfl, rfl, rfl⟩, ⟨rfl, rfl, rfl, rfl, rfl⟩,
   applyOpenCalls_mono calls o⟩

/-- Witness for C9: a read flag set before further builder calls is still
set after them. -/
theorem C9_open_options_builder_witness :
    (applyOpenCalls LinuxOpenOptions.new.setRead
      [OpenOptionCall.write, OpenOptionCall.create]).read = true :=
  (C9_open_options_builder LinuxOpenOptions.new.setRead
    [OpenOptionCall.write, OpenOptionCall.create]).2.2.2.2.2.2.1 rfl

/-- C1: the filesystem surface also provides remove_file, remove_dir,
remove_dir_recursively, create_dir, create_dir_recursively, list_dir,
get_metadata and get_symlink_metadata, with the behaviours the contract
states: remove_dir rejects a non-empty directory and removes an empty
one, remove_file removes a regular file, remove_dir_recursively removes
the path and everything below it, create_dir and create_dir_recursively
create the directory, list_dir lists a single level excluding the dot and
dotdot entries, and get_symlink_metadata does not follow symlinks while
get_metadata does. -/
theorem C1_filesystem_surface :
    (∀ (fs : FsState) (p : FsPath), lookupNode fs p = some FsNode.dir →
      childNames fs p ≠ [] → ∃ err, remove_dir fs p = Except.error err) ∧
    (∀ (fs : FsState) (p : FsPath), lookupNode fs p = some FsNode.dir →
      childNames fs p = [] → remove_dir fs p = Except.ok (eraseEntry fs p)) ∧
    (∀ (fs : FsState) (p : FsPath) (content : List Byte),
      lookupNode fs p = some (FsNode.file content) →
      remove_file fs p = Except.ok (eraseEntry fs p)) ∧
    (∀ (fs : FsState) (p : FsPath), ∃ fs2,
      remove_dir_recursively fs p = Except.ok fs2 ∧
      ∀ q, atOrUnder p q = true → lookupNode fs2 q = none) ∧
    (∀ (fs : FsState) (p : FsPath), lookupNode fs p = none →
      create_dir fs p = Except.ok ((p, FsNode.dir) :: fs) ∧
      lookupNode ((p, FsNode.dir) :: fs) p = some FsNode.dir) ∧
    (∀ (fs : FsState) (p : FsPath), p ≠ [] → lookupNode fs p = none →
      ∃ fs2, create_dir_recursively fs p = Except.ok fs2 ∧
        lookupNode fs2 p = some FsNode.dir) ∧
    (∀ (fs : FsState) (p : FsPath) (entries : List LinuxDirEntry),
      list_dir fs p = Except.ok entries → ∀ ent ∈ entries,
        ent.name ≠ "." ∧ ent.name ≠ ".." ∧ ent.path = p ++ [ent.name]) ∧
    (∀ (fs : FsState) (p t : FsPath) (n : FsNode),
      lookupNode fs p = some (FsNode.symlink t) →
      lookupNode fs t = some n → (∀ t2, n ≠ FsNode.symlink t2) →
      get_metadata fs p = Except.ok (metadataOf n) ∧
      get_symlink_metadata fs p = Except.ok (metadataOf (FsNode.symlink t))) := by
  refine ⟨?_, ?_, ?_, ?_, ?_, ?_, ?_, ?_⟩
  · intro fs p hdir hchild
    refine ⟨⟨IoErrorKind.other, "directory not empty"⟩, ?_⟩
    rw [remove_dir, hdir]
    simp [hchild]
  · intro fs p hdir hchild
    rw [remove_dir, hdir]
    simp [hchild]
  · intro fs p content hfile
    rw [remove_file, hfile]
  · intro fs p
    exact ⟨fs.filter (fun e => !atOrUnder p e.1), rfl,
      fun q hq => lookupNode_filter_not_under fs p q hq⟩
  · intro fs p hnone
    constructor
    · rw [create_dir, hnone]
    · simp [lookupNode]
  · intro fs p hp hnone
    refine ⟨mkdirAll fs [] p, rfl, ?_⟩
    have := mkdirAll_creates p fs [] hp (by simpa using hnone)
    simpa using this
  · exact list_dir_entries
  · intro fs p t n hp ht hns
    constructor
    · rw [get_metadata]
      have hres : resolvePath fs 40 p = some (t, n) := by
        rw [show (40 : Nat) = 39 + 1 from rfl, resolvePath, hp]
        show resolvePath fs 39 t = some (t, n)
        rw [show (39 : Nat) = 38 + 1 from rfl, resolvePath, ht]
        cases n with
        | file content => rfl
        | dir => rfl
        | symlink t2 => exact absurd rfl (hns t2)
      rw [hres]
    · rw [get_symlink_metadata, hp]

/-- A small concrete filesystem: a tmp directory holding a file, an empty
subdirectory and a symlink to the file. -/
def sampleFs : FsState :=
  [(["tmp"], FsNode.dir),
   (["tmp", "a.txt"], FsNode.file []),
   (["tmp", "sub"], FsNode.dir),
   (["tmp", "link"], FsNode.symlink ["tmp", "a.txt"])]

/-- Witness for C1 on a concrete filesystem: the non-empty tmp directory
is rejected by remove_dir, the file is removed by remove_file, and lstat
of the symlink reports the symlink itself while stat follows it. -/
theorem C1_filesystem_surface_witness :
    (∃ err, remove_dir sampleFs ["tmp"] = Except.error err) ∧
    remove_file sampleFs ["tmp", "a.txt"] =
      Except.ok (eraseEntry sampleFs ["tmp", "a.txt"]) ∧
    get_symlink_metadata sampleFs ["tmp", "link"] =
      Except.ok (metadataOf (FsNode.symlink ["tmp", "a.txt"])) ∧
    get_metadata sampleFs ["tmp", "link"] =
      Except.ok (metadataOf (FsNode.file [])) := by
  have hrest := C1_filesystem_surface.2.2.2.2.2.2.2 sampleFs ["tmp", "link"]
    ["tmp", "a.txt"] (FsNode.file []) (by decide) (by decide)
    (fun t2 h => FsNode.noConfusion h)
  exact ⟨C1_filesystem_surface.1 sampleFs ["tmp"] (by decide) (by decide),
    C1_filesystem_surface.2.2.1 sampleFs ["tmp", "a.txt"] [] (by decide),
    hrest.2, hrest.1⟩
